import Mathlib

/-!
Shallow embedding of the LiTest unit-test engine (src/litest.hpp): the
assertion evaluators (`check`, `equal`, `throws`, `throwsType`,
`generateFailure`, `reportException`), the per-test run controller and the
suite coordinator (`TestSuite::runSome` / `run` / `addTest` / `startTest` /
`passed` / `failed` / `currentTestStats`).

Modelling conventions:
* C++ exceptions are values of the inductive `Exc`; a function that can
  throw returns `SuiteState × Except Exc α` (the state component carries the
  mutations performed before the throw, since the C++ suite is mutated by
  reference).
* A user-supplied callable (predicate / producer / action) is represented by
  its already-evaluated outcome, `Except Exc α`: either the value it returns
  or the exception it throws.  `Exc.userStd`/`Exc.userNonStd` are user
  exceptions that do / do not derive from `std::exception`; the engine's own
  `AssertionFailureException` and `TestAbortException` also derive from
  `std::exception` (`Exc.isStd`).
* Calls to the active `TestResultFormatter` (the reporter) are modelled as
  events appended to `SuiteState.events`; a fresh reporter is constructed at
  the start of every `runSome`, so `runSome` starts from an empty event list.
* Wall-clock time is not modelled: `Test.duration` is `Option Unit`, `none`
  for the uninitialised `double` and `some ()` once `runSome` writes the
  elapsed time after a normal return.
-/

namespace litest

/-- Result of a single assertion (`litest::AssertionResult`). -/
inductive AssertionResult where
  | Passed
  | Failed
  deriving DecidableEq, Repr

/-- Action to take after an assertion failure (`litest::OnAssertionFailure`). -/
inductive OnAssertionFailure where
  | Continue
  | Abort
  deriving DecidableEq, Repr

/-- Behaviour of a test suite when an assertion fails (`litest::TestSuite::Mode`). -/
inductive Mode where
  | Continue
  | Throw
  deriving DecidableEq, Repr

/-- A C++ exception in flight.  The engine's own two exception classes both
derive from `std::exception`; user code may throw anything. -/
inductive Exc where
  | assertionFailure (msg : String)
  | testAbort (line : Int) (msg : String)
  | userStd (tag : Nat) (what : String)
  | userNonStd (tag : Nat)
  deriving DecidableEq, Repr

/-- Whether this exception is caught by a `catch (std::exception &e)` clause. -/
def Exc.isStd : Exc → Bool
  | .userNonStd _ => false
  | _ => true

/-- The `what()` message of an exception (consulted only behind `isStd`). -/
def Exc.what : Exc → String
  | .assertionFailure msg => msg
  | .testAbort _ msg => msg
  | .userStd _ w => w
  | .userNonStd _ => ""

/-- Whether a `catch (ThrownType &e)` clause for the user type `tag` catches
this exception.  The engine's own exception types are never the tested-for
type. -/
def Exc.hasTag (e : Exc) (tag : Nat) : Bool :=
  match e with
  | .userStd t _ => t = tag
  | .userNonStd t => t = tag
  | _ => false

/-- Statistics of several assertions in a `Test` (`litest::TestStats`). -/
structure TestStats where
  passes : Nat := 0
  fails : Nat := 0
  deriving DecidableEq, Repr

/-- An event pushed to the active `TestResultFormatter`: one constructor per
virtual hook the engine calls. -/
inductive Event where
  | testSuiteStart
  | testSuiteEnd
  | testHeader (file name : String) (index : Nat)
  | testFooter (file name : String) (index : Nat) (aborted : Bool)
      (durationSet : Bool) (stats : TestStats)
  | abortedTest (line : Int) (reason : String)
  | passedCheck (line : Int) (expr : String)
  | passedThrow (line : Int) (expr : String)
  | passedEquals (line : Int) (expr : String) (val : String)
  | unexpectedException (line : Int) (expr : String) (msg : String)
  | failedCheck (line : Int) (expr : String)
  | failedEquals (line : Int) (expr : String) (val : String) (res : String)
  | failedThrow (line : Int) (expr : String)
  | manualFailure (line : Int) (reason : String)
  deriving DecidableEq, Repr

/-- A value universe for `equal` assertions at concrete types: integers and
strings print via `operator<<`; `silent` stands for a type with no textual
representation. -/
inductive LTValue where
  | int (n : Int)
  | str (s : String)
  | silent (tag : Nat)
  deriving DecidableEq, Repr

/-- Which overload of `internal::descriptionIfAvailable` exists for each
`LTValue`: `some` when `operator<<` is available, `none` otherwise. -/
def LTValue.desc : LTValue → Option String
  | .int n => some (toString n)
  | .str s => some s
  | .silent _ => none

/-- The overload set `internal::descriptionIfAvailable`: the textual
description of a value when its type offers one, else the fallback. -/
def descriptionIfAvailable {α : Type} (desc : α → Option String) (v : α) : String :=
  match desc v with
  | some s => s
  | none => "N/A"

deriving instance DecidableEq for Except

/-- One statement of a test body: an assertion-evaluator call with its
callable's outcome and call-site metadata, or a raw `throw` in test code. -/
inductive Stmt where
  | checkS (func : Except Exc Bool) (onFail : OnAssertionFailure) (exprstr : String) (line : Int)
  | equalS (val : LTValue) (func : Except Exc LTValue) (onFail : OnAssertionFailure)
      (exprstr : String) (line : Int)
  | throwsS (func : Except Exc Unit) (onFail : OnAssertionFailure) (exprstr : String) (line : Int)
  | throwsTypeS (tag : Nat) (func : Except Exc Unit) (onFail : OnAssertionFailure)
      (exprstr : String) (line : Int)
  | failS (reason : String) (onFail : OnAssertionFailure) (line : Int)
  | raiseS (e : Exc)
  deriving DecidableEq, Repr

/-- A test (`litest::Test`).  The body is the list of statements the test
function executes in order. -/
structure Test where
  file : String
  name : String
  func : List Stmt
  index : Nat
  aborted : Bool := false
  duration : Option Unit := none
  deriving DecidableEq, Repr

/-- Bump the pass counter of a `TestStats`. -/
def incPasses (t : TestStats) : TestStats :=
  { t with passes := t.passes + 1 }

/-- Bump the fail counter of a `TestStats`. -/
def incFails (t : TestStats) : TestStats :=
  { t with fails := t.fails + 1 }

/-- Update the element at a position of a list, the identity out of range
(stand-in for the C++ `stats_[counter]` indexed write). -/
def modifyAt (f : TestStats → TestStats) : List TestStats → Nat → List TestStats
  | [], _ => []
  | x :: xs, 0 => f x :: xs
  | x :: xs, n + 1 => x :: modifyAt f xs n

/-- The state of a `litest::TestSuite` object, plus the event trace of the
reporter attached to the current run. -/
structure SuiteState where
  suiteName : String
  mode : Mode := Mode.Continue
  tests : List Test := []
  counter : Int := -1
  stats : List TestStats := []
  totalStats : TestStats := {}
  events : List Event := []
  deriving DecidableEq, Repr

/-- A call `output->format...(...)` on the active reporter. -/
def SuiteState.emit (s : SuiteState) (e : Event) : SuiteState :=
  { s with events := s.events ++ [e] }

/-- The `TestSuite` constructor. -/
def mkSuite (name : String) : SuiteState :=
  { suiteName := name }

/-- `TestSuite::addTest`: appends a test whose `index` is `tests.size() + 1`. -/
def addTest (s : SuiteState) (name : String) (func : List Stmt) (file : String) : SuiteState :=
  { s with tests := s.tests ++
      [{ file := file, name := name, func := func, index := s.tests.length + 1 }] }

/-- `TestSuite::startTest`: advances the test counter and pushes a fresh
per-test stats slot. -/
def SuiteState.startTest (s : SuiteState) : SuiteState :=
  { s with counter := s.counter + 1, stats := s.stats ++ [{}] }

/-- `TestSuite::passed`: increments both the suite-total and the current
test's pass counters. -/
def SuiteState.passed (s : SuiteState) : SuiteState :=
  { s with totalStats := incPasses s.totalStats,
           stats := if s.counter < 0 then s.stats else modifyAt incPasses s.stats s.counter.toNat }

/-- `TestSuite::failed`: increments both the suite-total and the current
test's fail counters. -/
def SuiteState.failed (s : SuiteState) : SuiteState :=
  { s with totalStats := incFails s.totalStats,
           stats := if s.counter < 0 then s.stats else modifyAt incFails s.stats s.counter.toNat }

/-- `TestSuite::currentTestStats`. -/
def SuiteState.currentTestStats (s : SuiteState) : TestStats :=
  if s.counter < 0 then {} else s.stats.getD s.counter.toNat {}

/-- The failure-policy resolution block repeated verbatim at the end of every
assertion evaluator: throw `AssertionFailureException` in `Throw` mode, else
throw `TestAbortException` under an `Abort` policy, else return `Failed`. -/
def failResolve (s : SuiteState) (throwMsg abortMsg : String) (onFail : OnAssertionFailure)
    (line : Int) : SuiteState × Except Exc AssertionResult :=
  if s.mode = Mode.Throw then (s, Except.error (Exc.assertionFailure throwMsg))
  else if onFail = OnAssertionFailure.Abort then
    (s, Except.error (Exc.testAbort line abortMsg))
  else (s, Except.ok AssertionResult.Failed)

/-- `litest::reportException`: the shared error path for an unexpected
exception caught inside an assertion evaluator.  Every call site in the
source leaves `onFail` at its default `OnAssertionFailure::Abort`. -/
def reportException (s : SuiteState) (line : Int) (exprstr msg : String)
    (onFail : OnAssertionFailure) : SuiteState × Except Exc AssertionResult :=
  let s1 := (s.failed).emit (Event.unexpectedException line exprstr msg)
  failResolve s1 ("Unexpected exception in: " ++ exprstr) "Caught in assertion" onFail line

/-- `litest::check`: asserts that the predicate's value is `true`. -/
def check (s : SuiteState) (func : Except Exc Bool) (onFail : OnAssertionFailure)
    (exprstr : String) (line : Int) : SuiteState × Except Exc AssertionResult :=
  match func with
  | Except.error e =>
    if e.isStd then reportException s line exprstr e.what OnAssertionFailure.Abort
    else reportException s line exprstr "N/A" OnAssertionFailure.Abort
  | Except.ok res =>
    if !res then
      let s1 := (s.failed).emit (Event.failedCheck line exprstr)
      failResolve s1 ("Broken assertion in: " ++ exprstr) "Check failed." onFail line
    else
      ((s.passed).emit (Event.passedCheck line exprstr), Except.ok AssertionResult.Passed)

/-- `litest::equal`: asserts that the producer's value equals `val`; the
`desc` parameter records which `descriptionIfAvailable` overload exists for
the value type.  Unlike `check`/`throws`/`throwsType`, whose failure-path
throws sit after their try blocks, the whole body of `equal` is inside its
try block: the `AssertionFailureException` / `TestAbortException` thrown on a
mismatch both derive from `std::exception`, so they are immediately re-caught
by `equal`'s own `catch (std::exception &e)` and routed through
`reportException` with `e.what()` — a second `failed()`, an extra
unexpected-exception event, and the signal that finally escapes comes from
`reportException`'s resolution (default `Abort` policy). -/
def equal {α : Type} [DecidableEq α] (desc : α → Option String) (s : SuiteState) (val : α)
    (func : Except Exc α) (onFail : OnAssertionFailure) (exprstr : String) (line : Int) :
    SuiteState × Except Exc AssertionResult :=
  match func with
  | Except.error e =>
    if e.isStd then reportException s line exprstr e.what OnAssertionFailure.Abort
    else reportException s line exprstr "N/A" OnAssertionFailure.Abort
  | Except.ok res =>
    if ¬ res = val then
      let s1 := (s.failed).emit (Event.failedEquals line exprstr
        (descriptionIfAvailable desc val) (descriptionIfAvailable desc res))
      if s1.mode = Mode.Throw then
        reportException s1 line exprstr ("Unexpected value in: " ++ exprstr)
          OnAssertionFailure.Abort
      else if onFail = OnAssertionFailure.Abort then
        reportException s1 line exprstr "Equal failed." OnAssertionFailure.Abort
      else (s1, Except.ok AssertionResult.Failed)
    else
      ((s.passed).emit (Event.passedEquals line exprstr (descriptionIfAvailable desc val)),
        Except.ok AssertionResult.Passed)

/-- `litest::throws`: asserts that the action throws anything; `catch (...)`
absorbs every exception on the pass path. -/
def throws (s : SuiteState) (func : Except Exc Unit) (onFail : OnAssertionFailure)
    (exprstr : String) (line : Int) : SuiteState × Except Exc AssertionResult :=
  match func with
  | Except.error _ =>
    ((s.passed).emit (Event.passedThrow line exprstr), Except.ok AssertionResult.Passed)
  | Except.ok _ =>
    let s1 := (s.failed).emit (Event.failedThrow line exprstr)
    failResolve s1 ("No exception in: " ++ exprstr) "No exception in throw assertion." onFail line

/-- `litest::throwsType`: asserts that the action throws the user type
`tag`; a wrong-type exception goes to `reportException`. -/
def throwsType (tag : Nat) (s : SuiteState) (func : Except Exc Unit)
    (onFail : OnAssertionFailure) (exprstr : String) (line : Int) :
    SuiteState × Except Exc AssertionResult :=
  match func with
  | Except.error e =>
    if e.hasTag tag then
      ((s.passed).emit (Event.passedThrow line exprstr), Except.ok AssertionResult.Passed)
    else if e.isStd then reportException s line exprstr e.what OnAssertionFailure.Abort
    else reportException s line exprstr "Uncaught exception in exception assertion"
      OnAssertionFailure.Abort
  | Except.ok _ =>
    let s1 := (s.failed).emit (Event.failedThrow line exprstr)
    failResolve s1 ("No exception in " ++ exprstr) "No exception in throw assertion." onFail line

/-- `litest::generateFailure`: records a manual failure. -/
def generateFailure (s : SuiteState) (reason : String) (onFail : OnAssertionFailure)
    (line : Int) : SuiteState × Except Exc AssertionResult :=
  let s1 := (s.failed).emit (Event.manualFailure line reason)
  failResolve s1 ("Manual failure, reason: " ++ reason) "Manual failure" onFail line

/-- Execute one statement of a test body. -/
def execStmt (s : SuiteState) : Stmt → SuiteState × Except Exc AssertionResult
  | Stmt.checkS func onFail exprstr line => check s func onFail exprstr line
  | Stmt.equalS val func onFail exprstr line => equal LTValue.desc s val func onFail exprstr line
  | Stmt.throwsS func onFail exprstr line => throws s func onFail exprstr line
  | Stmt.throwsTypeS tag func onFail exprstr line => throwsType tag s func onFail exprstr line
  | Stmt.failS reason onFail line => generateFailure s reason onFail line
  | Stmt.raiseS e => (s, Except.error e)

/-- Run a test body: statements execute in order until one throws. -/
def runBody (s : SuiteState) : List Stmt → SuiteState × Except Exc Unit
  | [] => (s, Except.ok ())
  | stmt :: rest =>
    match execStmt s stmt with
    | (s1, Except.ok _) => runBody s1 rest
    | (s1, Except.error e) => (s1, Except.error e)

/-- The footer event for a test record. -/
def footerOf (t : Test) (stats : TestStats) : Event :=
  Event.testFooter t.file t.name t.index t.aborted (t.duration.isSome) stats

/-- The header event for a test record. -/
def headerOf (t : Test) : Event :=
  Event.testHeader t.file t.name t.index

/-- The loop body of `TestSuite::runSome` for one test.  Note that the
source reads `auto test = this->tests[index];`, a by-value copy: `aborted`
and `duration` are written on the copy (observable through the footer
event), never on the suite's stored `Test`. -/
def runOneTest (s : SuiteState) (t : Test) : SuiteState :=
  let s1 := (s.startTest).emit (headerOf t)
  match runBody s1 t.func with
  | (s2, Except.ok _) =>
    let t1 := { t with duration := some () }
    s2.emit (footerOf t1 s2.currentTestStats)
  | (s2, Except.error (Exc.testAbort line msg)) =>
    let t1 := { t with aborted := true }
    let s3 := s2.emit (Event.abortedTest line msg)
    s3.emit (footerOf t1 s3.currentTestStats)
  | (s2, Except.error e) =>
    let t1 := { t with aborted := true }
    let s3 := s2.emit (Event.abortedTest 0
      (if e.isStd then "Uncaught exception: " ++ e.what
       else "Uncaught exception outside of assertion."))
    s3.emit (footerOf t1 s3.currentTestStats)

/-- A dummy test, returned by `getTest` out of range (never reached behind
`runSome`'s range check). -/
def dummyTest : Test :=
  { file := "N/A", name := "", func := [], index := 0 }

/-- Indexed access into the test list with an `int` index. -/
def getTest (l : List Test) (i : Int) : Test :=
  if i < 0 then dummyTest else l.getD i.toNat dummyTest

/-- One iteration of the `runSome` loop: the range check, then the run of
the selected test. -/
def runIdx (s : SuiteState) (index : Int) : SuiteState :=
  if 0 ≤ index ∧ index < (s.tests.length : Int) then runOneTest s (getTest s.tests index)
  else s

/-- `TestSuite::runSome`: sets the mode, attaches a fresh reporter, resets
the suite-total stats, emits suite start, runs each requested index that
passes the range check, and emits suite end. -/
def runSome (s : SuiteState) (testIdx : List Int) (mode : Mode) : SuiteState :=
  let s0 := { s with mode := mode, events := [], totalStats := {} }
  let s1 := s0.emit Event.testSuiteStart
  let s2 := testIdx.foldl runIdx s1
  s2.emit Event.testSuiteEnd

/-- `TestSuite::run`: `runSome` over the indices `0 .. tests.size() - 1`. -/
def run (s : SuiteState) (mode : Mode) : SuiteState :=
  runSome s ((List.range s.tests.length).map (fun n => (n : Int))) mode

/-- Line-number attribute of a body statement (`0` for a raw throw). -/
def Stmt.line : Stmt → Int
  | Stmt.checkS _ _ _ l => l
  | Stmt.equalS _ _ _ _ l => l
  | Stmt.throwsS _ _ _ l => l
  | Stmt.throwsTypeS _ _ _ _ l => l
  | Stmt.failS _ _ l => l
  | Stmt.raiseS _ => 0

/-- FailurePolicy attribute of a body statement. -/
def Stmt.policy : Stmt → OnAssertionFailure
  | Stmt.checkS _ p _ _ => p
  | Stmt.equalS _ _ p _ _ => p
  | Stmt.throwsS _ p _ _ => p
  | Stmt.throwsTypeS _ _ p _ _ => p
  | Stmt.failS _ p _ => p
  | Stmt.raiseS _ => OnAssertionFailure.Continue

/-- Expression-string attribute of a body statement. -/
def Stmt.exprstr : Stmt → String
  | Stmt.checkS _ _ ex _ => ex
  | Stmt.equalS _ _ _ ex _ => ex
  | Stmt.throwsS _ _ ex _ => ex
  | Stmt.throwsTypeS _ _ _ ex _ => ex
  | Stmt.failS _ _ _ => ""
  | Stmt.raiseS _ => ""

/-- Whether an assertion statement takes the plain failure path: its callable
returns a disqualifying value (or, for `failS`, unconditionally), with no
exception escaping the callable. -/
def plainFails : Stmt → Bool
  | Stmt.checkS (Except.ok res) _ _ _ => !res
  | Stmt.equalS val (Except.ok res) _ _ _ => if res = val then false else true
  | Stmt.throwsS (Except.ok _) _ _ _ => true
  | Stmt.throwsTypeS _ (Except.ok _) _ _ _ => true
  | Stmt.failS _ _ _ => true
  | _ => false

/-- The unexpected fault of an assertion statement: the exception its
callable raises, when that exception is not the one being tested for by
`throws`/`throwsType`. -/
def unexpectedFault : Stmt → Option Exc
  | Stmt.checkS (Except.error e) _ _ _ => some e
  | Stmt.equalS _ (Except.error e) _ _ _ => some e
  | Stmt.throwsTypeS tag (Except.error e) _ _ _ => if e.hasTag tag then none else some e
  | _ => none

/-- A raw user fault: one not produced by the engine itself. -/
def rawFault : Exc → Bool
  | Exc.userStd _ _ => true
  | Exc.userNonStd _ => true
  | _ => false

/-- The header events of a reporter trace. -/
def headers (evs : List Event) : List Event :=
  evs.filter fun e => match e with
    | Event.testHeader _ _ _ => true
    | _ => false

/-- Elementwise sum of two stats records. -/
def addStats (a b : TestStats) : TestStats :=
  { passes := a.passes + b.passes, fails := a.fails + b.fails }

/-- Elementwise sum of a list of stats records. -/
def sumStats : List TestStats → TestStats
  | [] => {}
  | x :: xs => addStats x (sumStats xs)

/-- Mid-test counter invariant: the cursor sits on the stats slot of the
running test, at least `k + 1` slots exist (`k` is the number of slots that
existed when the current run started), and the suite total equals the sum of
the slots created since the run started. -/
def ExecInv (k : Nat) (s : SuiteState) : Prop :=
  s.counter = (s.stats.length : Int) - 1 ∧ k + 1 ≤ s.stats.length ∧
    s.totalStats = sumStats (s.stats.drop k)

/-- Between-tests counter invariant. -/
def RunInv (k : Nat) (s : SuiteState) : Prop :=
  s.counter = (s.stats.length : Int) - 1 ∧ k ≤ s.stats.length ∧
    s.totalStats = sumStats (s.stats.drop k)

theorem emit_mode (s : SuiteState) (e : Event) : (s.emit e).mode = s.mode := rfl

theorem emit_tests (s : SuiteState) (e : Event) : (s.emit e).tests = s.tests := rfl

theorem emit_counter (s : SuiteState) (e : Event) : (s.emit e).counter = s.counter := rfl

theorem emit_stats (s : SuiteState) (e : Event) : (s.emit e).stats = s.stats := rfl

theorem emit_totalStats (s : SuiteState) (e : Event) : (s.emit e).totalStats = s.totalStats := rfl

theorem emit_events (s : SuiteState) (e : Event) : (s.emit e).events = s.events ++ [e] := rfl

theorem passed_mode (s : SuiteState) : (s.passed).mode = s.mode := rfl

theorem passed_tests (s : SuiteState) : (s.passed).tests = s.tests := rfl

theorem passed_counter (s : SuiteState) : (s.passed).counter = s.counter := rfl

theorem passed_events (s : SuiteState) : (s.passed).events = s.events := rfl

theorem passed_totalStats (s : SuiteState) : (s.passed).totalStats = incPasses s.totalStats := rfl

theorem failed_mode (s : SuiteState) : (s.failed).mode = s.mode := rfl

theorem failed_tests (s : SuiteState) : (s.failed).tests = s.tests := rfl

theorem failed_counter (s : SuiteState) : (s.failed).counter = s.counter := rfl

theorem failed_events (s : SuiteState) : (s.failed).events = s.events := rfl

theorem failed_totalStats (s : SuiteState) : (s.failed).totalStats = incFails s.totalStats := rfl

theorem startTest_mode (s : SuiteState) : (s.startTest).mode = s.mode := rfl

theorem startTest_tests (s : SuiteState) : (s.startTest).tests = s.tests := rfl

theorem startTest_events (s : SuiteState) : (s.startTest).events = s.events := rfl

theorem failResolve_fst (s : SuiteState) (m1 m2 : String) (onFail : OnAssertionFailure)
    (line : Int) : (failResolve s m1 m2 onFail line).1 = s := by
  unfold failResolve
  split
  · rfl
  · split <;> rfl

theorem reportException_fst (s : SuiteState) (line : Int) (ex msg : String)
    (onFail : OnAssertionFailure) :
    (reportException s line ex msg onFail).1 =
      (s.failed).emit (Event.unexpectedException line ex msg) := by
  simp only [reportException]
  rw [failResolve_fst]

theorem modifyAt_length (f : TestStats → TestStats) (l : List TestStats) (n : Nat) :
    (modifyAt f l n).length = l.length := by
  induction l generalizing n with
  | nil => rfl
  | cons x xs ih =>
    cases n with
    | zero => rfl
    | succ m => simpa [modifyAt] using ih m

theorem passed_stats_length (s : SuiteState) : (s.passed).stats.length = s.stats.length := by
  unfold SuiteState.passed
  split <;> simp [modifyAt_length]

theorem failed_stats_length (s : SuiteState) : (s.failed).stats.length = s.stats.length := by
  unfold SuiteState.failed
  split <;> simp [modifyAt_length]

theorem execStmt_frame (s : SuiteState) (a : Stmt) :
    (execStmt s a).1.mode = s.mode ∧ (execStmt s a).1.tests = s.tests ∧
    (execStmt s a).1.counter = s.counter ∧ (execStmt s a).1.stats.length = s.stats.length ∧
    ∃ δ, (execStmt s a).1.events = s.events ++ δ ∧ headers δ = [] := by
  cases a with
  | raiseS e =>
    exact ⟨rfl, rfl, rfl, rfl, [], by simp [execStmt], rfl⟩
  | checkS func onFail ex l =>
    cases func with
    | error e =>
      simp only [execStmt, check, reportException]
      split <;> rw [failResolve_fst] <;>
        exact ⟨rfl, rfl, rfl, by simp [emit_stats, failed_stats_length], _, rfl, rfl⟩
    | ok res =>
      simp only [execStmt, check]
      split
      · rw [failResolve_fst]
        exact ⟨rfl, rfl, rfl, by simp [emit_stats, failed_stats_length], _, rfl, rfl⟩
      · exact ⟨rfl, rfl, rfl, by simp [emit_stats, passed_stats_length], _, rfl, rfl⟩
  | equalS val func onFail ex l =>
    cases func with
    | error e =>
      simp only [execStmt, equal, reportException]
      split <;> rw [failResolve_fst] <;>
        exact ⟨rfl, rfl, rfl, by simp [emit_stats, failed_stats_length], _, rfl, rfl⟩
    | ok res =>
      simp only [execStmt, equal]
      split
      · split
        · rw [reportException_fst]
          refine ⟨rfl, rfl, rfl, by simp [emit_stats, failed_stats_length],
            [Event.failedEquals l ex (descriptionIfAvailable LTValue.desc val)
              (descriptionIfAvailable LTValue.desc res),
             Event.unexpectedException l ex ("Unexpected value in: " ++ ex)], ?_, rfl⟩
          simp [emit_events, failed_events]
        · split
          · rw [reportException_fst]
            refine ⟨rfl, rfl, rfl, by simp [emit_stats, failed_stats_length],
              [Event.failedEquals l ex (descriptionIfAvailable LTValue.desc val)
                (descriptionIfAvailable LTValue.desc res),
               Event.unexpectedException l ex "Equal failed."], ?_, rfl⟩
            simp [emit_events, failed_events]
          · exact ⟨rfl, rfl, rfl, by simp [emit_stats, failed_stats_length], _, rfl, rfl⟩
      · exact ⟨rfl, rfl, rfl, by simp [emit_stats, passed_stats_length], _, rfl, rfl⟩
  | throwsS func onFail ex l =>
    cases func with
    | error e =>
      exact ⟨rfl, rfl, rfl, by simp [execStmt, throws, emit_stats, passed_stats_length], _,
        rfl, rfl⟩
    | ok u =>
      simp only [execStmt, throws]
      rw [failResolve_fst]
      exact ⟨rfl, rfl, rfl, by simp [emit_stats, failed_stats_length], _, rfl, rfl⟩
  | throwsTypeS tag func onFail ex l =>
    cases func with
    | error e =>
      simp only [execStmt, throwsType, reportException]
      split
      · exact ⟨rfl, rfl, rfl, by simp [emit_stats, passed_stats_length], _, rfl, rfl⟩
      · split <;> rw [failResolve_fst] <;>
          exact ⟨rfl, rfl, rfl, by simp [emit_stats, failed_stats_length], _, rfl, rfl⟩
    | ok u =>
      simp only [execStmt, throwsType]
      rw [failResolve_fst]
      exact ⟨rfl, rfl, rfl, by simp [emit_stats, failed_stats_length], _, rfl, rfl⟩
  | failS reason onFail l =>
    simp only [execStmt, generateFailure]
    rw [failResolve_fst]
    exact ⟨rfl, rfl, rfl, by simp [emit_stats, failed_stats_length], _, rfl, rfl⟩

theorem runBody_frame (l : List Stmt) (s : SuiteState) :
    (runBody s l).1.mode = s.mode ∧ (runBody s l).1.tests = s.tests ∧
    (runBody s l).1.counter = s.counter ∧ (runBody s l).1.stats.length = s.stats.length ∧
    ∃ δ, (runBody s l).1.events = s.events ++ δ ∧ headers δ = [] := by
  induction l generalizing s with
  | nil => exact ⟨rfl, rfl, rfl, rfl, [], by simp [runBody], rfl⟩
  | cons a rest ih =>
    obtain ⟨h1, h2, h3, h4, δ1, h5, h6⟩ := execStmt_frame s a
    unfold runBody
    cases hx : execStmt s a with
    | mk s1 r =>
      rw [hx] at h1 h2 h3 h4 h5
      cases r with
      | ok u =>
        obtain ⟨g1, g2, g3, g4, δ2, g5, g6⟩ := ih s1
        refine ⟨by rw [g1, h1], by rw [g2, h2], by rw [g3, h3], by rw [g4, h4],
          δ1 ++ δ2, ?_, ?_⟩
        · rw [g5, h5, List.append_assoc]
        · simp [headers, List.filter_append] at h6 g6 ⊢
          exact ⟨h6, g6⟩
      | error e =>
        exact ⟨h1, h2, h3, h4, δ1, h5, h6⟩

theorem runOneTest_of_ok (s : SuiteState) (t : Test) (s2 : SuiteState)
    (h : runBody ((s.startTest).emit (headerOf t)) t.func = (s2, Except.ok ())) :
    runOneTest s t = s2.emit (footerOf { t with duration := some () } s2.currentTestStats) := by
  simp only [runOneTest]
  rw [h]

theorem runOneTest_of_abort (s : SuiteState) (t : Test) (s2 : SuiteState) (l : Int) (m : String)
    (h : runBody ((s.startTest).emit (headerOf t)) t.func =
      (s2, Except.error (Exc.testAbort l m))) :
    runOneTest s t = (s2.emit (Event.abortedTest l m)).emit
      (footerOf { t with aborted := true }
        ((s2.emit (Event.abortedTest l m)).currentTestStats)) := by
  simp only [runOneTest]
  rw [h]

theorem runOneTest_of_fault (s : SuiteState) (t : Test) (s2 : SuiteState) (e : Exc)
    (h : runBody ((s.startTest).emit (headerOf t)) t.func = (s2, Except.error e))
    (hne : ∀ l m, ¬ e = Exc.testAbort l m) :
    runOneTest s t = (s2.emit (Event.abortedTest 0
        (if e.isStd then "Uncaught exception: " ++ e.what
         else "Uncaught exception outside of assertion."))).emit
      (footerOf { t with aborted := true }
        ((s2.emit (Event.abortedTest 0
          (if e.isStd then "Uncaught exception: " ++ e.what
           else "Uncaught exception outside of assertion."))).currentTestStats)) := by
  simp only [runOneTest]
  rw [h]
  cases e with
  | testAbort l m => exact absurd rfl (hne l m)
  | assertionFailure m => rfl
  | userStd tag w => rfl
  | userNonStd tag => rfl

theorem headers_append (a b : List Event) : headers (a ++ b) = headers a ++ headers b :=
  List.filter_append a b

theorem addStats_zero_right (t : TestStats) : addStats t {} = t := by
  simp [addStats]

theorem sumStats_append (xs ys : List TestStats) :
    sumStats (xs ++ ys) = addStats (sumStats xs) (sumStats ys) := by
  induction xs with
  | nil => simp [sumStats, addStats]
  | cons x xs ih => simp [sumStats, ih, addStats, Nat.add_assoc]

theorem sumStats_drop_modifyAt (f : TestStats → TestStats)
    (hf : ∀ x y, addStats (f x) y = f (addStats x y))
    (hfr : ∀ x y, addStats x (f y) = f (addStats x y)) :
    ∀ (l : List TestStats) (j k : Nat), k ≤ j → j < l.length →
      sumStats ((modifyAt f l j).drop k) = f (sumStats (l.drop k)) := by
  intro l
  induction l with
  | nil => intro j k _ h; exact absurd h (by simp)
  | cons x xs ih =>
    intro j k hkj hj
    cases k with
    | zero =>
      cases j with
      | zero => simp [modifyAt, sumStats, hf]
      | succ j' =>
        simp only [modifyAt, List.drop_zero, sumStats]
        rw [show modifyAt f xs j' = (modifyAt f xs j').drop 0 from rfl,
          ih j' 0 (Nat.zero_le _) (by simpa using hj)]
        simp [hfr]
    | succ k' =>
      cases j with
      | zero => exact absurd hkj (by simp)
      | succ j' =>
        simp only [modifyAt, List.drop_succ_cons]
        exact ih j' k' (Nat.le_of_succ_le_succ hkj) (by simpa using hj)

theorem addStats_incPasses (x y : TestStats) :
    addStats (incPasses x) y = incPasses (addStats x y) := by
  simp [addStats, incPasses, Nat.add_right_comm]

theorem addStats_incFails (x y : TestStats) :
    addStats (incFails x) y = incFails (addStats x y) := by
  simp [addStats, incFails, Nat.add_right_comm]

theorem addStats_incPasses_right (x y : TestStats) :
    addStats x (incPasses y) = incPasses (addStats x y) := by
  simp [addStats, incPasses, Nat.add_assoc]

theorem addStats_incFails_right (x y : TestStats) :
    addStats x (incFails y) = incFails (addStats x y) := by
  simp [addStats, incFails, Nat.add_assoc]

theorem passed_ExecInv (k : Nat) (s : SuiteState) (h : ExecInv k s) :
    ExecInv k s.passed := by
  obtain ⟨h1, h2, h3⟩ := h
  have hlen : 0 < s.stats.length := Nat.lt_of_lt_of_le (Nat.succ_pos k) h2
  have hneg : ¬ s.counter < 0 := by
    rw [h1]
    omega
  have htn : s.counter.toNat = s.stats.length - 1 := by
    omega
  refine ⟨?_, ?_, ?_⟩
  · rw [passed_counter, h1]
    congr 1
    rw [passed_stats_length]
  · rw [passed_stats_length]; exact h2
  · rw [passed_totalStats, h3]
    show incPasses (sumStats (s.stats.drop k)) =
      sumStats ((SuiteState.passed s).stats.drop k)
    unfold SuiteState.passed
    simp only [if_neg hneg]
    rw [htn, sumStats_drop_modifyAt incPasses addStats_incPasses addStats_incPasses_right
      s.stats (s.stats.length - 1) k (by omega) (by omega)]

theorem failed_ExecInv (k : Nat) (s : SuiteState) (h : ExecInv k s) :
    ExecInv k s.failed := by
  obtain ⟨h1, h2, h3⟩ := h
  have hlen : 0 < s.stats.length := Nat.lt_of_lt_of_le (Nat.succ_pos k) h2
  have hneg : ¬ s.counter < 0 := by
    rw [h1]
    omega
  have htn : s.counter.toNat = s.stats.length - 1 := by
    omega
  refine ⟨?_, ?_, ?_⟩
  · rw [failed_counter, h1]
    congr 1
    rw [failed_stats_length]
  · rw [failed_stats_length]; exact h2
  · rw [failed_totalStats, h3]
    show incFails (sumStats (s.stats.drop k)) =
      sumStats ((SuiteState.failed s).stats.drop k)
    unfold SuiteState.failed
    simp only [if_neg hneg]
    rw [htn, sumStats_drop_modifyAt incFails addStats_incFails addStats_incFails_right
      s.stats (s.stats.length - 1) k (by omega) (by omega)]

theorem emit_ExecInv (k : Nat) (s : SuiteState) (e : Event) (h : ExecInv k s) :
    ExecInv k (s.emit e) := h

/-- Any single assertion-evaluator step leaves the suite unchanged, applies
`passed`/`failed` once followed by one reporter event, or — on `equal`'s
self-caught failure path — applies `failed` + event twice. -/
theorem execStmt_state_shape (s : SuiteState) (a : Stmt) :
    (execStmt s a).1 = s ∨
    (∃ ev, (execStmt s a).1 = (s.passed).emit ev) ∨
    (∃ ev, (execStmt s a).1 = (s.failed).emit ev) ∨
    (∃ ev1 ev2, (execStmt s a).1 = (((s.failed).emit ev1).failed).emit ev2) := by
  cases a with
  | raiseS e => exact Or.inl rfl
  | checkS func onFail ex l =>
    cases func with
    | error e =>
      simp only [execStmt, check, reportException]
      split <;> rw [failResolve_fst] <;> exact Or.inr (Or.inr (Or.inl ⟨_, rfl⟩))
    | ok res =>
      simp only [execStmt, check]
      split
      · rw [failResolve_fst]; exact Or.inr (Or.inr (Or.inl ⟨_, rfl⟩))
      · exact Or.inr (Or.inl ⟨_, rfl⟩)
  | equalS val func onFail ex l =>
    cases func with
    | error e =>
      simp only [execStmt, equal, reportException]
      split <;> rw [failResolve_fst] <;> exact Or.inr (Or.inr (Or.inl ⟨_, rfl⟩))
    | ok res =>
      simp only [execStmt, equal]
      split
      · split
        · rw [reportException_fst]
          exact Or.inr (Or.inr (Or.inr ⟨_, _, rfl⟩))
        · split
          · rw [reportException_fst]
            exact Or.inr (Or.inr (Or.inr ⟨_, _, rfl⟩))
          · exact Or.inr (Or.inr (Or.inl ⟨_, rfl⟩))
      · exact Or.inr (Or.inl ⟨_, rfl⟩)
  | throwsS func onFail ex l =>
    cases func with
    | error e => exact Or.inr (Or.inl ⟨_, rfl⟩)
    | ok u =>
      simp only [execStmt, throws]
      rw [failResolve_fst]
      exact Or.inr (Or.inr (Or.inl ⟨_, rfl⟩))
  | throwsTypeS tag func onFail ex l =>
    cases func with
    | error e =>
      simp only [execStmt, throwsType, reportException]
      split
      · exact Or.inr (Or.inl ⟨_, rfl⟩)
      · split <;> rw [failResolve_fst] <;> exact Or.inr (Or.inr (Or.inl ⟨_, rfl⟩))
    | ok u =>
      simp only [execStmt, throwsType]
      rw [failResolve_fst]
      exact Or.inr (Or.inr (Or.inl ⟨_, rfl⟩))
  | failS reason onFail l =>
    simp only [execStmt, generateFailure]
    rw [failResolve_fst]
    exact Or.inr (Or.inr (Or.inl ⟨_, rfl⟩))

theorem execStmt_ExecInv (k : Nat) (s : SuiteState) (a : Stmt) (h : ExecInv k s) :
    ExecInv k (execStmt s a).1 := by
  rcases execStmt_state_shape s a with hs | ⟨ev, hs⟩ | ⟨ev, hs⟩ | ⟨ev1, ev2, hs⟩ <;> rw [hs]
  · exact h
  · exact emit_ExecInv k _ ev (passed_ExecInv k s h)
  · exact emit_ExecInv k _ ev (failed_ExecInv k s h)
  · exact emit_ExecInv k _ ev2 (failed_ExecInv k _
      (emit_ExecInv k _ ev1 (failed_ExecInv k s h)))

theorem runBody_ExecInv (k : Nat) (l : List Stmt) (s : SuiteState) (h : ExecInv k s) :
    ExecInv k (runBody s l).1 := by
  induction l generalizing s with
  | nil => exact h
  | cons a rest ih =>
    have hx := execStmt_ExecInv k s a h
    unfold runBody
    cases he : execStmt s a with
    | mk s1 r =>
      rw [he] at hx
      cases r with
      | ok u => exact ih s1 hx
      | error e => exact hx

theorem startTest_ExecInv (k : Nat) (s : SuiteState) (h : RunInv k s) :
    ExecInv k s.startTest := by
  obtain ⟨h1, h2, h3⟩ := h
  refine ⟨?_, ?_, ?_⟩
  · simp only [SuiteState.startTest, List.length_append, List.length_cons, List.length_nil]
    omega
  · simp only [SuiteState.startTest, List.length_append, List.length_cons, List.length_nil]
    omega
  · simp only [SuiteState.startTest]
    rw [List.drop_append_of_le_length h2, sumStats_append, h3]
    simp [sumStats, addStats_zero_right]

theorem runOneTest_RunInv (k : Nat) (s : SuiteState) (t : Test) (h : RunInv k s) :
    RunInv k (runOneTest s t) := by
  have hb := runBody_ExecInv k t.func ((s.startTest).emit (headerOf t))
    (emit_ExecInv k _ _ (startTest_ExecInv k s h))
  simp only [runOneTest]
  cases hx : runBody ((s.startTest).emit (headerOf t)) t.func with
  | mk s2 r =>
    rw [hx] at hb
    obtain ⟨g1, g2, g3⟩ := hb
    have weak : RunInv k s2 := ⟨g1, Nat.le_of_succ_le g2, g3⟩
    cases r with
    | ok u => exact weak
    | error e =>
      cases e with
      | testAbort l m => exact weak
      | assertionFailure m => exact weak
      | userStd tag w => exact weak
      | userNonStd tag => exact weak

theorem runOneTest_tests (s : SuiteState) (t : Test) : (runOneTest s t).tests = s.tests := by
  have hfr := (runBody_frame t.func ((s.startTest).emit (headerOf t))).2.1
  simp only [runOneTest]
  cases hx : runBody ((s.startTest).emit (headerOf t)) t.func with
  | mk s2 r =>
    rw [hx] at hfr
    cases r with
    | ok u => exact hfr
    | error e => cases e <;> exact hfr

theorem runOneTest_mode (s : SuiteState) (t : Test) : (runOneTest s t).mode = s.mode := by
  have hfr := (runBody_frame t.func ((s.startTest).emit (headerOf t))).1
  simp only [runOneTest]
  cases hx : runBody ((s.startTest).emit (headerOf t)) t.func with
  | mk s2 r =>
    rw [hx] at hfr
    cases r with
    | ok u => exact hfr
    | error e => cases e <;> exact hfr

theorem headers_headerOf (t : Test) : headers [headerOf t] = [headerOf t] := rfl

theorem headers_nil : headers [] = [] := rfl

theorem headers_cons_headerOf (t : Test) (l : List Event) :
    headers (headerOf t :: l) = headerOf t :: headers l := by
  simp [headers, headerOf]

theorem headers_cons_abortedTest (a : Int) (r : String) (l : List Event) :
    headers (Event.abortedTest a r :: l) = headers l := by
  simp [headers]

theorem headers_cons_footerOf (t : Test) (st : TestStats) (l : List Event) :
    headers (footerOf t st :: l) = headers l := by
  simp [headers, footerOf]

theorem headers_footerOf (t : Test) (st : TestStats) : headers [footerOf t st] = [] := rfl

theorem headers_abortedTest (l : Int) (r : String) : headers [Event.abortedTest l r] = [] := rfl

theorem runOneTest_headers (s : SuiteState) (t : Test) :
    headers (runOneTest s t).events = headers s.events ++ [headerOf t] := by
  obtain ⟨-, -, -, -, δ, h5, h6⟩ := runBody_frame t.func ((s.startTest).emit (headerOf t))
  simp only [runOneTest]
  cases hx : runBody ((s.startTest).emit (headerOf t)) t.func with
  | mk s2 r =>
    rw [hx] at h5
    have h5a : s2.events = (s.events ++ [headerOf t]) ++ δ := by
      simpa [emit_events, startTest_events] using h5
    cases r with
    | ok u =>
      simp only [emit_events]
      rw [h5a]
      simp [headers_append, h6, headers_headerOf, headers_footerOf, headers_nil,
        headers_cons_headerOf, headers_cons_abortedTest, headers_cons_footerOf]
    | error e =>
      cases e <;> simp only [emit_events] <;> rw [h5a] <;>
        simp [headers_append, h6, headers_headerOf, headers_footerOf, headers_abortedTest,
          headers_nil, headers_cons_headerOf, headers_cons_abortedTest, headers_cons_footerOf]

theorem runIdx_tests (s : SuiteState) (i : Int) : (runIdx s i).tests = s.tests := by
  unfold runIdx
  split
  · exact runOneTest_tests s _
  · rfl

theorem foldl_runIdx_headers (idxs : List Int) (s : SuiteState) :
    headers ((idxs.foldl runIdx s).events) =
      headers s.events ++
        (idxs.filter fun i => decide (0 ≤ i ∧ i < (s.tests.length : Int))).map
          (fun i => headerOf (getTest s.tests i)) := by
  induction idxs generalizing s with
  | nil => simp
  | cons i rest ih =>
    simp only [List.foldl_cons, List.filter_cons]
    by_cases hc : 0 ≤ i ∧ i < (s.tests.length : Int)
    · rw [show runIdx s i = runOneTest s (getTest s.tests i) from by
        unfold runIdx; rw [if_pos hc]]
      rw [ih (runOneTest s (getTest s.tests i)), runOneTest_headers, runOneTest_tests]
      simp [hc]
    · rw [show runIdx s i = s from by unfold runIdx; rw [if_neg hc]]
      rw [ih s]
      simp [hc]

theorem runSome_headers (s : SuiteState) (idxs : List Int) (mode : Mode) :
    headers (runSome s idxs mode).events =
      (idxs.filter fun i => decide (0 ≤ i ∧ i < (s.tests.length : Int))).map
        (fun i => headerOf (getTest s.tests i)) := by
  simp only [runSome, emit_events]
  rw [headers_append, foldl_runIdx_headers]
  simp [headers, SuiteState.emit]

theorem foldl_runIdx_tests (idxs : List Int) (x : SuiteState) :
    (idxs.foldl runIdx x).tests = x.tests := by
  induction idxs generalizing x with
  | nil => rfl
  | cons i rest ih =>
    simp only [List.foldl_cons]
    rw [ih, runIdx_tests]

theorem runSome_tests (s : SuiteState) (idxs : List Int) (mode : Mode) :
    (runSome s idxs mode).tests = s.tests := by
  simp only [runSome, emit_tests]
  rw [foldl_runIdx_tests]
  rfl

theorem runIdx_RunInv (k : Nat) (s : SuiteState) (i : Int) (h : RunInv k s) :
    RunInv k (runIdx s i) := by
  unfold runIdx
  split
  · exact runOneTest_RunInv k s _ h
  · exact h

theorem foldl_runIdx_RunInv (k : Nat) (idxs : List Int) (s : SuiteState) (h : RunInv k s) :
    RunInv k (idxs.foldl runIdx s) := by
  induction idxs generalizing s with
  | nil => exact h
  | cons i rest ih => exact ih (runIdx s i) (runIdx_RunInv k s i h)

theorem emit_RunInv (k : Nat) (s : SuiteState) (e : Event) (h : RunInv k s) :
    RunInv k (s.emit e) := h

theorem runSome_RunInv (s : SuiteState) (idxs : List Int) (mode : Mode)
    (h : s.counter = (s.stats.length : Int) - 1) :
    RunInv s.stats.length (runSome s idxs mode) := by
  simp only [runSome]
  apply emit_RunInv
  apply foldl_runIdx_RunInv
  apply emit_RunInv
  refine ⟨h, Nat.le_refl _, ?_⟩
  simp [List.drop_length, sumStats]

theorem runBody_cons_error (s s1 : SuiteState) (a : Stmt) (rest : List Stmt) (e : Exc)
    (h : execStmt s a = (s1, Except.error e)) :
    runBody s (a :: rest) = (s1, Except.error e) := by
  simp only [runBody]
  rw [h]

theorem runBody_cons_ok (s s1 : SuiteState) (a : Stmt) (rest : List Stmt)
    (r : AssertionResult) (h : execStmt s a = (s1, Except.ok r)) :
    runBody s (a :: rest) = runBody s1 rest := by
  simp only [runBody]
  rw [h]

theorem runBody_append_ok (s s1 : SuiteState) (l1 l2 : List Stmt)
    (h : runBody s l1 = (s1, Except.ok ())) :
    runBody s (l1 ++ l2) = runBody s1 l2 := by
  induction l1 generalizing s with
  | nil =>
    simp only [runBody] at h
    cases h
    rfl
  | cons a rest ih =>
    simp only [List.cons_append]
    cases hx : execStmt s a with
    | mk s2 r =>
      cases r with
      | ok u =>
        rw [runBody_cons_ok s s2 a rest u hx] at h
        rw [runBody_cons_ok s s2 a (rest ++ l2) u hx]
        exact ih s2 h
      | error e =>
        rw [runBody_cons_error s s2 a rest e hx] at h
        exact absurd h (by simp)

theorem execStmt_plainFail_abort (a : Stmt)
    (hpol : a.policy = OnAssertionFailure.Abort) (hfail : plainFails a = true)
    (s : SuiteState) (hmode : s.mode = Mode.Continue) :
    ∃ s1 msg, execStmt s a = (s1, Except.error (Exc.testAbort a.line msg)) := by
  cases a with
  | raiseS e => simp [plainFails] at hfail
  | checkS func p ex l =>
    cases func with
    | error e => simp [plainFails] at hfail
    | ok res =>
      have hres : res = false := by
        cases res
        · rfl
        · simp [plainFails] at hfail
      subst hres
      have hp : p = OnAssertionFailure.Abort := hpol
      subst hp
      refine ⟨(s.failed).emit (Event.failedCheck l ex), "Check failed.", ?_⟩
      simp [execStmt, check, failResolve, emit_mode, failed_mode, hmode, Stmt.line]
  | equalS val func p ex l =>
    cases func with
    | error e => simp [plainFails] at hfail
    | ok res =>
      have hres : ¬ res = val := by
        by_cases hrv : res = val
        · simp [plainFails, hrv] at hfail
        · exact hrv
      have hp : p = OnAssertionFailure.Abort := hpol
      subst hp
      refine ⟨(((s.failed).emit (Event.failedEquals l ex
        (descriptionIfAvailable LTValue.desc val)
        (descriptionIfAvailable LTValue.desc res))).failed).emit
        (Event.unexpectedException l ex "Equal failed."),
        "Caught in assertion", ?_⟩
      simp [execStmt, equal, reportException, failResolve, emit_mode, failed_mode, hmode,
        hres, Stmt.line]
  | throwsS func p ex l =>
    cases func with
    | error e => simp [plainFails] at hfail
    | ok u =>
      have hp : p = OnAssertionFailure.Abort := hpol
      subst hp
      refine ⟨(s.failed).emit (Event.failedThrow l ex), "No exception in throw assertion.", ?_⟩
      simp [execStmt, throws, failResolve, emit_mode, failed_mode, hmode, Stmt.line]
  | throwsTypeS tag func p ex l =>
    cases func with
    | error e => simp [plainFails] at hfail
    | ok u =>
      have hp : p = OnAssertionFailure.Abort := hpol
      subst hp
      refine ⟨(s.failed).emit (Event.failedThrow l ex), "No exception in throw assertion.", ?_⟩
      simp [execStmt, throwsType, failResolve, emit_mode, failed_mode, hmode, Stmt.line]
  | failS reason p l =>
    have hp : p = OnAssertionFailure.Abort := hpol
    subst hp
    refine ⟨(s.failed).emit (Event.manualFailure l reason), "Manual failure", ?_⟩
    simp [execStmt, generateFailure, failResolve, emit_mode, failed_mode, hmode, Stmt.line]

theorem execStmt_plainFail_continue (a : Stmt)
    (hpol : a.policy = OnAssertionFailure.Continue) (hfail : plainFails a = true)
    (s : SuiteState) (hmode : s.mode = Mode.Continue) :
    ∃ s1, execStmt s a = (s1, Except.ok AssertionResult.Failed) := by
  cases a with
  | raiseS e => simp [plainFails] at hfail
  | checkS func p ex l =>
    cases func with
    | error e => simp [plainFails] at hfail
    | ok res =>
      have hres : res = false := by
        cases res
        · rfl
        · simp [plainFails] at hfail
      subst hres
      have hp : p = OnAssertionFailure.Continue := hpol
      subst hp
      refine ⟨(s.failed).emit (Event.failedCheck l ex), ?_⟩
      simp [execStmt, check, failResolve, emit_mode, failed_mode, hmode]
  | equalS val func p ex l =>
    cases func with
    | error e => simp [plainFails] at hfail
    | ok res =>
      have hres : ¬ res = val := by
        by_cases hrv : res = val
        · simp [plainFails, hrv] at hfail
        · exact hrv
      have hp : p = OnAssertionFailure.Continue := hpol
      subst hp
      refine ⟨(s.failed).emit (Event.failedEquals l ex
        (descriptionIfAvailable LTValue.desc val) (descriptionIfAvailable LTValue.desc res)), ?_⟩
      simp [execStmt, equal, failResolve, emit_mode, failed_mode, hmode, hres]
  | throwsS func p ex l =>
    cases func with
    | error e => simp [plainFails] at hfail
    | ok u =>
      have hp : p = OnAssertionFailure.Continue := hpol
      subst hp
      refine ⟨(s.failed).emit (Event.failedThrow l ex), ?_⟩
      simp [execStmt, throws, failResolve, emit_mode, failed_mode, hmode]
  | throwsTypeS tag func p ex l =>
    cases func with
    | error e => simp [plainFails] at hfail
    | ok u =>
      have hp : p = OnAssertionFailure.Continue := hpol
      subst hp
      refine ⟨(s.failed).emit (Event.failedThrow l ex), ?_⟩
      simp [execStmt, throwsType, failResolve, emit_mode, failed_mode, hmode]
  | failS reason p l =>
    have hp : p = OnAssertionFailure.Continue := hpol
    subst hp
    refine ⟨(s.failed).emit (Event.manualFailure l reason), ?_⟩
    simp [execStmt, generateFailure, failResolve, emit_mode, failed_mode, hmode]

theorem reportException_spec (s : SuiteState) (line : Int) (ex msg : String) :
    reportException s line ex msg OnAssertionFailure.Abort =
      ((s.failed).emit (Event.unexpectedException line ex msg),
        Except.error (if s.mode = Mode.Throw
          then Exc.assertionFailure ("Unexpected exception in: " ++ ex)
          else Exc.testAbort line "Caught in assertion")) := by
  by_cases hthrow : s.mode = Mode.Throw <;>
    simp [reportException, failResolve, emit_mode, failed_mode, hthrow]

theorem execStmt_unexpectedFault (a : Stmt) (e : Exc) (hu : unexpectedFault a = some e)
    (s : SuiteState) :
    ∃ msg, execStmt s a =
      ((s.failed).emit (Event.unexpectedException a.line a.exprstr msg),
        Except.error (if s.mode = Mode.Throw
          then Exc.assertionFailure ("Unexpected exception in: " ++ a.exprstr)
          else Exc.testAbort a.line "Caught in assertion")) ∧
      (msg = e.what ∨ msg = "N/A" ∨ msg = "Uncaught exception in exception assertion") := by
  cases a with
  | raiseS e0 => simp [unexpectedFault] at hu
  | failS reason p l => simp [unexpectedFault] at hu
  | throwsS func p ex l => simp [unexpectedFault] at hu
  | checkS func p ex l =>
    cases func with
    | ok res => simp [unexpectedFault] at hu
    | error e0 =>
      have he : e0 = e := by simpa [unexpectedFault] using hu
      subst he
      by_cases hstd : e0.isStd
      · exact ⟨e0.what, by simp [execStmt, check, hstd, reportException_spec,
          Stmt.line, Stmt.exprstr], Or.inl rfl⟩
      · exact ⟨"N/A", by simp [execStmt, check, hstd, reportException_spec,
          Stmt.line, Stmt.exprstr], Or.inr (Or.inl rfl)⟩
  | equalS val func p ex l =>
    cases func with
    | ok res => simp [unexpectedFault] at hu
    | error e0 =>
      have he : e0 = e := by simpa [unexpectedFault] using hu
      subst he
      by_cases hstd : e0.isStd
      · exact ⟨e0.what, by simp [execStmt, equal, hstd, reportException_spec,
          Stmt.line, Stmt.exprstr], Or.inl rfl⟩
      · exact ⟨"N/A", by simp [execStmt, equal, hstd, reportException_spec,
          Stmt.line, Stmt.exprstr], Or.inr (Or.inl rfl)⟩
  | throwsTypeS tag func p ex l =>
    cases func with
    | ok res => simp [unexpectedFault] at hu
    | error e0 =>
      by_cases htag : e0.hasTag tag
      · simp [unexpectedFault, htag] at hu
      · have he : e0 = e := by simpa [unexpectedFault, htag] using hu
        subst he
        by_cases hstd : e0.isStd
        · exact ⟨e0.what, by simp [execStmt, throwsType, htag, hstd, reportException_spec,
            Stmt.line, Stmt.exprstr], Or.inl rfl⟩
        · exact ⟨"Uncaught exception in exception assertion",
            by simp [execStmt, throwsType, htag, hstd, reportException_spec,
              Stmt.line, Stmt.exprstr], Or.inr (Or.inr rfl)⟩

theorem execStmt_plainFail_throw (a : Stmt) (hfail : plainFails a = true)
    (s : SuiteState) (hmode : s.mode = Mode.Throw) :
    ∃ s1 msg, execStmt s a = (s1, Except.error (Exc.assertionFailure msg)) := by
  cases a with
  | raiseS e => simp [plainFails] at hfail
  | checkS func p ex l =>
    cases func with
    | error e => simp [plainFails] at hfail
    | ok res =>
      have hres : res = false := by
        cases res
        · rfl
        · simp [plainFails] at hfail
      subst hres
      refine ⟨(s.failed).emit (Event.failedCheck l ex), "Broken assertion in: " ++ ex, ?_⟩
      simp [execStmt, check, failResolve, emit_mode, failed_mode, hmode]
  | equalS val func p ex l =>
    cases func with
    | error e => simp [plainFails] at hfail
    | ok res =>
      have hres : ¬ res = val := by
        by_cases hrv : res = val
        · simp [plainFails, hrv] at hfail
        · exact hrv
      refine ⟨(((s.failed).emit (Event.failedEquals l ex
        (descriptionIfAvailable LTValue.desc val)
        (descriptionIfAvailable LTValue.desc res))).failed).emit
        (Event.unexpectedException l ex ("Unexpected value in: " ++ ex)),
        "Unexpected exception in: " ++ ex, ?_⟩
      simp [execStmt, equal, reportException, failResolve, emit_mode, failed_mode, hmode,
        hres]
  | throwsS func p ex l =>
    cases func with
    | error e => simp [plainFails] at hfail
    | ok u =>
      refine ⟨(s.failed).emit (Event.failedThrow l ex), "No exception in: " ++ ex, ?_⟩
      simp [execStmt, throws, failResolve, emit_mode, failed_mode, hmode]
  | throwsTypeS tag func p ex l =>
    cases func with
    | error e => simp [plainFails] at hfail
    | ok u =>
      refine ⟨(s.failed).emit (Event.failedThrow l ex), "No exception in " ++ ex, ?_⟩
      simp [execStmt, throwsType, failResolve, emit_mode, failed_mode, hmode]
  | failS reason p l =>
    refine ⟨(s.failed).emit (Event.manualFailure l reason),
      "Manual failure, reason: " ++ reason, ?_⟩
    simp [execStmt, generateFailure, failResolve, emit_mode, failed_mode, hmode]

/-- C1: an assertion of any kind evaluated at `Abort` policy that fails under
SuiteMode `Continue` raises a test-abort signal carrying its own line number;
no statement after it in the body is evaluated (the body's result does not
depend on the remaining statements); the test's record gets `aborted = true`
and the reporter's aborted hook is called with that line number, followed by
the footer. -/
theorem abortPolicyFailureAbortsTest (a : Stmt)
    (hpol : a.policy = OnAssertionFailure.Abort) (hfail : plainFails a = true) :
    (∀ s : SuiteState, s.mode = Mode.Continue →
      ∃ s1 msg,
        execStmt s a = (s1, Except.error (Exc.testAbort a.line msg)) ∧
        ∀ rest, runBody s (a :: rest) = (s1, Except.error (Exc.testAbort a.line msg))) ∧
    (∀ (s sp : SuiteState) (t : Test) (pre rest : List Stmt),
      s.mode = Mode.Continue →
      t.func = pre ++ a :: rest →
      runBody ((s.startTest).emit (headerOf t)) pre = (sp, Except.ok ()) →
      ∃ s1 msg,
        execStmt sp a = (s1, Except.error (Exc.testAbort a.line msg)) ∧
        runOneTest s t = (s1.emit (Event.abortedTest a.line msg)).emit
          (footerOf { t with aborted := true }
            ((s1.emit (Event.abortedTest a.line msg)).currentTestStats))) := by
  constructor
  · intro s hm
    obtain ⟨s1, msg, hx⟩ := execStmt_plainFail_abort a hpol hfail s hm
    exact ⟨s1, msg, hx, fun rest => runBody_cons_error s s1 a rest _ hx⟩
  · intro s sp t pre rest hm ht hpre
    have hf := (runBody_frame pre ((s.startTest).emit (headerOf t))).1
    rw [hpre] at hf
    have hmp : sp.mode = Mode.Continue := by
      rw [emit_mode, startTest_mode, hm] at hf
      exact hf
    obtain ⟨s1, msg, hx⟩ := execStmt_plainFail_abort a hpol hfail sp hmp
    have hbody : runBody ((s.startTest).emit (headerOf t)) t.func =
        (s1, Except.error (Exc.testAbort a.line msg)) := by
      rw [ht, runBody_append_ok _ sp _ _ hpre]
      exact runBody_cons_error sp s1 a rest _ hx
    exact ⟨s1, msg, hx, runOneTest_of_abort s t s1 a.line msg hbody⟩

/-- C1 witness: the theorem applied to a concrete failing `Abort`-policy check
at line 10 in a fresh suite. -/
theorem abortPolicyFailureAbortsTest_witness :
    (Stmt.checkS (Except.ok false) OnAssertionFailure.Abort "x" 10).policy =
        OnAssertionFailure.Abort ∧
    plainFails (Stmt.checkS (Except.ok false) OnAssertionFailure.Abort "x" 10) = true ∧
    (∃ s1 msg, execStmt (mkSuite "w")
        (Stmt.checkS (Except.ok false) OnAssertionFailure.Abort "x" 10) =
      (s1, Except.error (Exc.testAbort 10 msg))) := by
  refine ⟨rfl, rfl, ?_⟩
  obtain ⟨s1, msg, hx, -⟩ :=
    (abortPolicyFailureAbortsTest (Stmt.checkS (Except.ok false) OnAssertionFailure.Abort "x" 10)
      rfl rfl).1 (mkSuite "w") rfl
  exact ⟨s1, msg, hx⟩

/-- C7: an assertion of any kind evaluated at `Continue` policy that fails
under SuiteMode `Continue` raises no signal and returns `Failed`, so the body
continues with the remaining statements; concretely, a test running
`check(true)` then `check(false)` at `Continue` policy ends with per-test
stats `{passes := 1, fails := 1}` and `aborted = false` in its footer. -/
theorem continuePolicyFailureContinues (a : Stmt)
    (hpol : a.policy = OnAssertionFailure.Continue) (hfail : plainFails a = true) :
    (∀ s : SuiteState, s.mode = Mode.Continue →
      ∃ s1, execStmt s a = (s1, Except.ok AssertionResult.Failed) ∧
        ∀ rest, runBody s (a :: rest) = runBody s1 rest) ∧
    ((run (addTest (mkSuite "suite") "A"
        [Stmt.checkS (Except.ok true) OnAssertionFailure.Continue "a" 1,
         Stmt.checkS (Except.ok false) OnAssertionFailure.Continue "b" 2] "f")
        Mode.Continue).events =
      [Event.testSuiteStart, Event.testHeader "f" "A" 1,
       Event.passedCheck 1 "a", Event.failedCheck 2 "b",
       Event.testFooter "f" "A" 1 false true { passes := 1, fails := 1 },
       Event.testSuiteEnd]) := by
  constructor
  · intro s hm
    obtain ⟨s1, hx⟩ := execStmt_plainFail_continue a hpol hfail s hm
    exact ⟨s1, hx, fun rest => runBody_cons_ok s s1 a rest _ hx⟩
  · rfl

/-- C7 witness: the theorem applied to a concrete failing `Continue`-policy
check in a fresh suite. -/
theorem continuePolicyFailureContinues_witness :
    (Stmt.checkS (Except.ok false) OnAssertionFailure.Continue "x" 2).policy =
        OnAssertionFailure.Continue ∧
    plainFails (Stmt.checkS (Except.ok false) OnAssertionFailure.Continue "x" 2) = true ∧
    (∃ s1, execStmt (mkSuite "w")
        (Stmt.checkS (Except.ok false) OnAssertionFailure.Continue "x" 2) =
      (s1, Except.ok AssertionResult.Failed)) := by
  refine ⟨rfl, rfl, ?_⟩
  obtain ⟨s1, hx, -⟩ :=
    (continuePolicyFailureContinues
      (Stmt.checkS (Except.ok false) OnAssertionFailure.Continue "x" 2) rfl rfl).1
      (mkSuite "w") rfl
  exact ⟨s1, hx⟩

/-- C2: an assertion whose callable raises a fault that is not the one being
tested for increments the fail counters, emits the unexpected-fault reporter
event with the fault's message or a placeholder, and raises a signal that
aborts the current test — for every caller-supplied policy (the policy is not
even consulted), in particular `Continue`. -/
theorem unexpectedFaultAlwaysAborts (a : Stmt) (e : Exc)
    (hu : unexpectedFault a = some e) :
    (∀ s : SuiteState,
      ∃ msg exc,
        execStmt s a =
          ((s.failed).emit (Event.unexpectedException a.line a.exprstr msg),
            Except.error exc) ∧
        (execStmt s a).1.totalStats.fails = s.totalStats.fails + 1 ∧
        (msg = e.what ∨ msg = "N/A" ∨ msg = "Uncaught exception in exception assertion")) ∧
    (∀ (s sp : SuiteState) (t : Test) (pre rest : List Stmt),
      t.func = pre ++ a :: rest →
      runBody ((s.startTest).emit (headerOf t)) pre = (sp, Except.ok ()) →
      ∃ (ab : Event) (stats : TestStats),
        runOneTest s t =
          ((execStmt sp a).1.emit ab).emit (footerOf { t with aborted := true } stats)) := by
  constructor
  · intro s
    obtain ⟨msg, hx, hm⟩ := execStmt_unexpectedFault a e hu s
    refine ⟨msg, _, hx, ?_, hm⟩
    rw [hx]
    rfl
  · intro s sp t pre rest ht hpre
    obtain ⟨msg, hx, -⟩ := execStmt_unexpectedFault a e hu sp
    have hbody : runBody ((s.startTest).emit (headerOf t)) t.func =
        ((sp.failed).emit (Event.unexpectedException a.line a.exprstr msg),
          Except.error (if sp.mode = Mode.Throw
            then Exc.assertionFailure ("Unexpected exception in: " ++ a.exprstr)
            else Exc.testAbort a.line "Caught in assertion")) := by
      rw [ht, runBody_append_ok _ sp _ _ hpre]
      exact runBody_cons_error sp _ a rest _ hx
    have hfst : (execStmt sp a).1 =
        (sp.failed).emit (Event.unexpectedException a.line a.exprstr msg) := by
      rw [hx]
    by_cases hmode : sp.mode = Mode.Throw
    · rw [if_pos hmode] at hbody
      have hrun := runOneTest_of_fault s t _ _ hbody (by intro l m h; cases h)
      rw [← hfst] at hrun
      exact ⟨_, _, hrun⟩
    · rw [if_neg hmode] at hbody
      have hrun := runOneTest_of_abort s t _ a.line "Caught in assertion" hbody
      rw [← hfst] at hrun
      exact ⟨_, _, hrun⟩

/-- C2 witness: the theorem applied to a concrete `check` whose predicate
throws a user exception, at `Continue` policy. -/
theorem unexpectedFaultAlwaysAborts_witness :
    unexpectedFault (Stmt.checkS (Except.error (Exc.userStd 3 "boom"))
        OnAssertionFailure.Continue "x" 7) = some (Exc.userStd 3 "boom") ∧
    (∃ msg exc, execStmt (mkSuite "w")
        (Stmt.checkS (Except.error (Exc.userStd 3 "boom"))
          OnAssertionFailure.Continue "x" 7) =
      (((mkSuite "w").failed).emit (Event.unexpectedException 7 "x" msg),
        Except.error exc)) := by
  refine ⟨rfl, ?_⟩
  obtain ⟨msg, exc, hx, -, -⟩ :=
    (unexpectedFaultAlwaysAborts
      (Stmt.checkS (Except.error (Exc.userStd 3 "boom")) OnAssertionFailure.Continue "x" 7)
      (Exc.userStd 3 "boom") rfl).1 (mkSuite "w")
  exact ⟨msg, exc, hx⟩

/-- C3 counterexample: in `Throw` mode the hard assertion-failure signal is
raised by a failing check, yet it does not propagate out of `runSome`: the
suite's own `catch (std::exception)` handler contains it, reports the test
aborted with an uncaught-exception message, and the next requested test still
runs, with `runSome` returning normally. -/
theorem throwModeSignalContainedCex :
    (∃ s1, execStmt { mkSuite "s" with mode := Mode.Throw }
        (Stmt.checkS (Except.ok false) OnAssertionFailure.Continue "e" 5) =
      (s1, Except.error (Exc.assertionFailure "Broken assertion in: e"))) ∧
    (run (addTest (addTest (mkSuite "s") "T1"
        [Stmt.checkS (Except.ok false) OnAssertionFailure.Continue "e" 5] "f")
        "T2" [Stmt.checkS (Except.ok true) OnAssertionFailure.Continue "t" 6] "f")
        Mode.Throw).events =
      [Event.testSuiteStart, Event.testHeader "f" "T1" 1, Event.failedCheck 5 "e",
       Event.abortedTest 0 "Uncaught exception: Broken assertion in: e",
       Event.testFooter "f" "T1" 1 true false { passes := 0, fails := 1 },
       Event.testHeader "f" "T2" 2, Event.passedCheck 6 "t",
       Event.testFooter "f" "T2" 2 false true { passes := 1, fails := 0 },
       Event.testSuiteEnd] := by
  exact ⟨⟨_, rfl⟩, rfl⟩

/-- C3 amended: in `Throw` mode every failed or erroring assertion — a plain
failure of any kind, or a callable raising an unexpected fault — immediately
raises the hard `AssertionFailureException` regardless of the per-call
FailurePolicy; the signal unwinds the current test body, but it derives from
`std::exception`, so `runSome`'s generic per-test handler catches it: the test
is reported aborted with an uncaught-exception message and the run continues
with the remaining tests instead of the signal escaping `runSome`. -/
theorem throwModeRaisesHardSignalButContained (a : Stmt)
    (hfail : plainFails a = true ∨ ∃ e, unexpectedFault a = some e) :
    (∀ s : SuiteState, s.mode = Mode.Throw →
      ∃ s1 msg, execStmt s a = (s1, Except.error (Exc.assertionFailure msg)) ∧
        ∀ rest, runBody s (a :: rest) = (s1, Except.error (Exc.assertionFailure msg))) ∧
    (∀ (s sp : SuiteState) (t : Test) (pre rest : List Stmt),
      s.mode = Mode.Throw →
      t.func = pre ++ a :: rest →
      runBody ((s.startTest).emit (headerOf t)) pre = (sp, Except.ok ()) →
      ∃ s1 msg,
        execStmt sp a = (s1, Except.error (Exc.assertionFailure msg)) ∧
        runOneTest s t =
          (s1.emit (Event.abortedTest 0 ("Uncaught exception: " ++ msg))).emit
            (footerOf { t with aborted := true }
              ((s1.emit (Event.abortedTest 0
                ("Uncaught exception: " ++ msg))).currentTestStats))) := by
  have key : ∀ s : SuiteState, s.mode = Mode.Throw →
      ∃ s1 msg, execStmt s a = (s1, Except.error (Exc.assertionFailure msg)) := by
    intro s hm
    rcases hfail with hp | ⟨e, hu⟩
    · exact execStmt_plainFail_throw a hp s hm
    · obtain ⟨msg, hx, -⟩ := execStmt_unexpectedFault a e hu s
      rw [if_pos hm] at hx
      exact ⟨_, _, hx⟩
  constructor
  · intro s hm
    obtain ⟨s1, msg, hx⟩ := key s hm
    exact ⟨s1, msg, hx, fun rest => runBody_cons_error s s1 a rest _ hx⟩
  · intro s sp t pre rest hm ht hpre
    have hf := (runBody_frame pre ((s.startTest).emit (headerOf t))).1
    rw [hpre] at hf
    have hmp : sp.mode = Mode.Throw := by
      rw [emit_mode, startTest_mode, hm] at hf
      exact hf
    obtain ⟨s1, msg, hx⟩ := key sp hmp
    have hbody : runBody ((s.startTest).emit (headerOf t)) t.func =
        (s1, Except.error (Exc.assertionFailure msg)) := by
      rw [ht, runBody_append_ok _ sp _ _ hpre]
      exact runBody_cons_error sp s1 a rest _ hx
    refine ⟨s1, msg, hx, ?_⟩
    have := runOneTest_of_fault s t s1 (Exc.assertionFailure msg) hbody
      (by intro l m h; cases h)
    simpa [Exc.isStd, Exc.what] using this

/-- C3 witness: the amended theorem applied to a concrete failing check under
a `Throw`-mode suite. -/
theorem throwModeRaisesHardSignalButContained_witness :
    (plainFails (Stmt.checkS (Except.ok false) OnAssertionFailure.Continue "e" 5) = true ∨
      ∃ e, unexpectedFault (Stmt.checkS (Except.ok false) OnAssertionFailure.Continue "e" 5) =
        some e) ∧
    (∃ s1 msg, execStmt { mkSuite "s" with mode := Mode.Throw }
        (Stmt.checkS (Except.ok false) OnAssertionFailure.Continue "e" 5) =
      (s1, Except.error (Exc.assertionFailure msg))) := by
  refine ⟨Or.inl rfl, ?_⟩
  obtain ⟨s1, msg, hx, -⟩ :=
    (throwModeRaisesHardSignalButContained
      (Stmt.checkS (Except.ok false) OnAssertionFailure.Continue "e" 5) (Or.inl rfl)).1
      { mkSuite "s" with mode := Mode.Throw } rfl
  exact ⟨s1, msg, hx⟩

/-- C5: `throws` passes exactly when the action raises a fault — any fault —
and the fault is fully absorbed (the evaluator returns normally, so the body
continues and the Run Controller never sees it); when no fault is raised it
takes the failure path (fail counter bumped, failed-throw event) and never
returns `Passed`. -/
theorem throwsAbsorbsExpectedFault :
    (∀ (s : SuiteState) (e : Exc) (onFail : OnAssertionFailure) (ex : String) (line : Int),
      throws s (Except.error e) onFail ex line =
        ((s.passed).emit (Event.passedThrow line ex), Except.ok AssertionResult.Passed)) ∧
    (∀ (s : SuiteState) (onFail : OnAssertionFailure) (ex : String) (line : Int),
      ∃ r, throws s (Except.ok ()) onFail ex line =
        ((s.failed).emit (Event.failedThrow line ex), r) ∧
        ¬ r = Except.ok AssertionResult.Passed) ∧
    (∀ (s : SuiteState) (e : Exc) (onFail : OnAssertionFailure) (ex : String) (line : Int)
        (rest : List Stmt),
      runBody s (Stmt.throwsS (Except.error e) onFail ex line :: rest) =
        runBody ((s.passed).emit (Event.passedThrow line ex)) rest) := by
  refine ⟨fun s e onFail ex line => rfl, ?_, ?_⟩
  · intro s onFail ex line
    by_cases hthrow :
        ((s.failed).emit (Event.failedThrow line ex)).mode = Mode.Throw
    · exact ⟨Except.error (Exc.assertionFailure ("No exception in: " ++ ex)),
        by simp [throws, failResolve, hthrow], by simp⟩
    · by_cases habort : onFail = OnAssertionFailure.Abort
      · exact ⟨Except.error (Exc.testAbort line "No exception in throw assertion."),
          by simp [throws, failResolve, hthrow, habort], by simp⟩
      · exact ⟨Except.ok AssertionResult.Failed,
          by simp [throws, failResolve, hthrow, habort], by simp⟩
  · intro s e onFail ex line rest
    exact runBody_cons_ok s _ _ rest AssertionResult.Passed rfl

/-- C6: a raw user fault escaping the test body (never routed through an
assertion evaluator) is caught by the per-test handler in `runSome`: the
test's record gets `aborted = true`, the aborted hook is called with the
unknown-line marker `0` and a generic uncaught-fault message, and — since
`runOneTest` returns a state rather than re-raising — subsequent requested
tests still run (concrete two-test scenario). -/
theorem uncaughtFaultAbortsTestAndIsContained (e : Exc) (he : rawFault e = true) :
    (∀ (s sp : SuiteState) (t : Test),
      runBody ((s.startTest).emit (headerOf t)) t.func = (sp, Except.error e) →
      runOneTest s t = (sp.emit (Event.abortedTest 0
          (if e.isStd then "Uncaught exception: " ++ e.what
           else "Uncaught exception outside of assertion."))).emit
        (footerOf { t with aborted := true }
          ((sp.emit (Event.abortedTest 0
            (if e.isStd then "Uncaught exception: " ++ e.what
             else "Uncaught exception outside of assertion."))).currentTestStats))) ∧
    ((run (addTest (addTest (mkSuite "s") "T1"
        [Stmt.checkS (Except.ok true) OnAssertionFailure.Continue "c" 1,
         Stmt.raiseS (Exc.userStd 3 "boom")] "f")
        "T2" [Stmt.checkS (Except.ok true) OnAssertionFailure.Continue "t" 9] "f")
        Mode.Continue).events =
      [Event.testSuiteStart, Event.testHeader "f" "T1" 1, Event.passedCheck 1 "c",
       Event.abortedTest 0 "Uncaught exception: boom",
       Event.testFooter "f" "T1" 1 true false { passes := 1, fails := 0 },
       Event.testHeader "f" "T2" 2, Event.passedCheck 9 "t",
       Event.testFooter "f" "T2" 2 false true { passes := 1, fails := 0 },
       Event.testSuiteEnd]) := by
  constructor
  · intro s sp t hb
    refine runOneTest_of_fault s t sp e hb ?_
    intro l m h
    rw [h] at he
    simp [rawFault] at he
  · rfl

/-- C6 witness: the theorem applied to a concrete raw user fault; the
two-test scenario shows the fault contained and the second test running. -/
theorem uncaughtFaultAbortsTestAndIsContained_witness :
    rawFault (Exc.userStd 3 "boom") = true ∧
    ((run (addTest (addTest (mkSuite "s") "T1"
        [Stmt.checkS (Except.ok true) OnAssertionFailure.Continue "c" 1,
         Stmt.raiseS (Exc.userStd 3 "boom")] "f")
        "T2" [Stmt.checkS (Except.ok true) OnAssertionFailure.Continue "t" 9] "f")
        Mode.Continue).events =
      [Event.testSuiteStart, Event.testHeader "f" "T1" 1, Event.passedCheck 1 "c",
       Event.abortedTest 0 "Uncaught exception: boom",
       Event.testFooter "f" "T1" 1 true false { passes := 1, fails := 0 },
       Event.testHeader "f" "T2" 2, Event.passedCheck 9 "t",
       Event.testFooter "f" "T2" 2 false true { passes := 1, fails := 0 },
       Event.testSuiteEnd]) :=
  ⟨rfl, (uncaughtFaultAbortsTestAndIsContained (Exc.userStd 3 "boom") rfl).2⟩

/-- Exact behaviour of `equal` on a mismatch, for every mode and policy: the
first `failed()` and the failed-equals event always happen; then under
`Throw` mode or `Abort` policy the throw is self-caught inside `equal`'s try
block and routed through `reportException` (a second `failed()`, an
unexpected-exception event with the caught exception's message, and
`reportException`'s own signal); only under `Continue` policy in `Continue`
mode does `equal` return `Failed` directly. -/
theorem equal_mismatch {α : Type} [DecidableEq α] (desc : α → Option String)
    (s : SuiteState) (val res : α) (onFail : OnAssertionFailure) (ex : String) (line : Int)
    (hneq : ¬ res = val) :
    equal desc s val (Except.ok res) onFail ex line =
      (if s.mode = Mode.Throw then
        ((((s.failed).emit (Event.failedEquals line ex (descriptionIfAvailable desc val)
            (descriptionIfAvailable desc res))).failed).emit
          (Event.unexpectedException line ex ("Unexpected value in: " ++ ex)),
          Except.error (Exc.assertionFailure ("Unexpected exception in: " ++ ex)))
      else if onFail = OnAssertionFailure.Abort then
        ((((s.failed).emit (Event.failedEquals line ex (descriptionIfAvailable desc val)
            (descriptionIfAvailable desc res))).failed).emit
          (Event.unexpectedException line ex "Equal failed."),
          Except.error (Exc.testAbort line "Caught in assertion"))
      else
        ((s.failed).emit (Event.failedEquals line ex (descriptionIfAvailable desc val)
          (descriptionIfAvailable desc res)), Except.ok AssertionResult.Failed)) := by
  by_cases hmode : s.mode = Mode.Throw
  · simp [equal, hneq, reportException, failResolve, emit_mode, failed_mode, hmode]
  · by_cases habort : onFail = OnAssertionFailure.Abort <;>
      simp [equal, hneq, reportException, failResolve, emit_mode, failed_mode, hmode, habort]

/-- C8: `equal` compares the produced value to the expected one with the
type's (decidable) equality: a mismatch bumps the fail counters and emits the
failed-equals event carrying the rendered expected and actual values (it is
always the first event of the failure, and the result is never `Passed`; the
fail counter grows by exactly one, or by two when the `Abort`/`Throw` signal
is self-caught inside `equal` and re-reported); a match bumps the pass
counters and emits the passed-equals event with the value's text; the
rendering falls back to the placeholder when the type has no textual
representation; concretely `equal(5, producer-returning-6)` emits a
failed-equals event with texts `"5"` and `"6"` and one more fail. -/
theorem equalComparesAndRendersValues {α : Type} [DecidableEq α]
    (desc : α → Option String) :
    (∀ (s : SuiteState) (val res : α) (onFail : OnAssertionFailure) (ex : String)
        (line : Int), ¬ res = val → s.mode = Mode.Continue →
        onFail = OnAssertionFailure.Continue →
      equal desc s val (Except.ok res) onFail ex line =
        ((s.failed).emit (Event.failedEquals line ex (descriptionIfAvailable desc val)
          (descriptionIfAvailable desc res)), Except.ok AssertionResult.Failed)) ∧
    (∀ (s : SuiteState) (val res : α) (onFail : OnAssertionFailure) (ex : String)
        (line : Int), ¬ res = val →
      ∃ (s1 : SuiteState) (r : Except Exc AssertionResult),
        equal desc s val (Except.ok res) onFail ex line = (s1, r) ∧
        ¬ r = Except.ok AssertionResult.Passed ∧
        (∃ δ, s1.events = s.events ++ Event.failedEquals line ex
          (descriptionIfAvailable desc val) (descriptionIfAvailable desc res) :: δ) ∧
        (s1.totalStats.fails = s.totalStats.fails + 1 ∨
          s1.totalStats.fails = s.totalStats.fails + 2)) ∧
    (∀ (s : SuiteState) (val res : α) (onFail : OnAssertionFailure) (ex : String)
        (line : Int), res = val →
      equal desc s val (Except.ok res) onFail ex line =
        ((s.passed).emit (Event.passedEquals line ex (descriptionIfAvailable desc val)),
          Except.ok AssertionResult.Passed)) ∧
    (∀ v : α, desc v = none → descriptionIfAvailable desc v = "N/A") ∧
    (∀ (v : α) (txt : String), desc v = some txt → descriptionIfAvailable desc v = txt) ∧
    ((run (addTest (mkSuite "suite") "B"
        [Stmt.equalS (LTValue.int 5) (Except.ok (LTValue.int 6))
          OnAssertionFailure.Continue "producer" 3] "file") Mode.Continue).events =
      [Event.testSuiteStart, Event.testHeader "file" "B" 1,
       Event.failedEquals 3 "producer" "5" "6",
       Event.testFooter "file" "B" 1 false true { passes := 0, fails := 1 },
       Event.testSuiteEnd]) := by
  refine ⟨?_, ?_, ?_, ?_, ?_, rfl⟩
  · intro s val res onFail ex line hneq hm hc
    rw [equal_mismatch desc s val res onFail ex line hneq]
    simp [hm, hc]
  · intro s val res onFail ex line hneq
    rw [equal_mismatch desc s val res onFail ex line hneq]
    by_cases hmode : s.mode = Mode.Throw
    · rw [if_pos hmode]
      refine ⟨_, _, rfl, by simp,
        ⟨[Event.unexpectedException line ex ("Unexpected value in: " ++ ex)], ?_⟩,
        Or.inr rfl⟩
      simp [emit_events, failed_events]
    · rw [if_neg hmode]
      by_cases habort : onFail = OnAssertionFailure.Abort
      · rw [if_pos habort]
        refine ⟨_, _, rfl, by simp,
          ⟨[Event.unexpectedException line ex "Equal failed."], ?_⟩, Or.inr rfl⟩
        simp [emit_events, failed_events]
      · rw [if_neg habort]
        exact ⟨_, _, rfl, by simp, ⟨[], by simp [emit_events, failed_events]⟩, Or.inl rfl⟩
  · intro s val res onFail ex line heq
    subst heq
    simp [equal]
  · intro v hv
    simp [descriptionIfAvailable, hv]
  · intro v txt hv
    simp [descriptionIfAvailable, hv]

/-- C9 counterexample: a run whose only test is cut short reports the abort on
the footer's copy of the Test, but the Test stored in the suite's collection
keeps `aborted = false` and an unset duration: `runSome` reads the test by
value (`auto test = this->tests[index]`) and writes the flags on that copy. -/
theorem testFlagsWrittenOnCopyCex :
    (run (addTest (mkSuite "s") "C"
        [Stmt.checkS (Except.ok false) OnAssertionFailure.Abort "e" 10] "f")
        Mode.Continue).events =
      [Event.testSuiteStart, Event.testHeader "f" "C" 1, Event.failedCheck 10 "e",
       Event.abortedTest 10 "Check failed.",
       Event.testFooter "f" "C" 1 true false { passes := 0, fails := 1 },
       Event.testSuiteEnd] ∧
    ((run (addTest (mkSuite "s") "C"
        [Stmt.checkS (Except.ok false) OnAssertionFailure.Abort "e" 10] "f")
        Mode.Continue).tests.getD 0 dummyTest).aborted = false ∧
    ((run (addTest (mkSuite "s") "C"
        [Stmt.checkS (Except.ok false) OnAssertionFailure.Abort "e" 10] "f")
        Mode.Continue).tests.getD 0 dummyTest).duration = none :=
  ⟨rfl, rfl, rfl⟩

/-- C9 amended: the `aborted`/`duration` fields are written exactly once per
execution, on the per-run copy of the Test that the reporter's footer
receives — the duration on a normal return, `aborted := true` on every
cut-short execution, whether by the test-abort signal or by any other fault
escaping the body; the Test stored in the suite's collection is left
unchanged by `runSome`. -/
theorem testFlagsWrittenOnCopy :
    (∀ (s : SuiteState) (idxs : List Int) (mode : Mode),
      (runSome s idxs mode).tests = s.tests) ∧
    (∀ (s sp : SuiteState) (t : Test),
      runBody ((s.startTest).emit (headerOf t)) t.func = (sp, Except.ok ()) →
      runOneTest s t = sp.emit (footerOf { t with duration := some () }
        sp.currentTestStats)) ∧
    (∀ (s sp : SuiteState) (t : Test) (l : Int) (m : String),
      runBody ((s.startTest).emit (headerOf t)) t.func =
          (sp, Except.error (Exc.testAbort l m)) →
      runOneTest s t = (sp.emit (Event.abortedTest l m)).emit
        (footerOf { t with aborted := true }
          ((sp.emit (Event.abortedTest l m)).currentTestStats))) ∧
    (∀ (s sp : SuiteState) (t : Test) (e : Exc),
      runBody ((s.startTest).emit (headerOf t)) t.func = (sp, Except.error e) →
      (∀ l m, ¬ e = Exc.testAbort l m) →
      runOneTest s t = (sp.emit (Event.abortedTest 0
          (if e.isStd then "Uncaught exception: " ++ e.what
           else "Uncaught exception outside of assertion."))).emit
        (footerOf { t with aborted := true }
          ((sp.emit (Event.abortedTest 0
            (if e.isStd then "Uncaught exception: " ++ e.what
             else "Uncaught exception outside of assertion."))).currentTestStats))) :=
  ⟨runSome_tests, fun s sp t h => runOneTest_of_ok s t sp h,
    fun s sp t l m h => runOneTest_of_abort s t sp l m h,
    fun s sp t e h hne => runOneTest_of_fault s t sp e h hne⟩

theorem modifyAt_getD (f : TestStats → TestStats) (l : List TestStats) (n : Nat)
    (hn : n < l.length) (d : TestStats) :
    (modifyAt f l n).getD n d = f (l.getD n d) := by
  induction l generalizing n with
  | nil => simp at hn
  | cons x xs ih =>
    cases n with
    | zero => simp [modifyAt]
    | succ m => simpa [modifyAt] using ih m (by simpa using hn)

/-- C4: every passed assertion increments the current test's and the
suite-total pass counters together, every failed assertion the two fail
counters together; `ExecInv` (the counters-in-sync invariant) is preserved by
every single assertion evaluation, and after a whole `runSome` (which resets
the suite totals before accumulating) the suite-total stats equal the
elementwise sum of exactly the per-test stats slots created during that
run. -/
theorem suiteTotalsAreSumOfPerTestStats (s0 : SuiteState) (idxs : List Int) (mode : Mode)
    (h : s0.counter = (s0.stats.length : Int) - 1) :
    ((runSome s0 idxs mode).totalStats =
      sumStats ((runSome s0 idxs mode).stats.drop s0.stats.length)) ∧
    (∀ s : SuiteState,
      (s.passed).totalStats.passes = s.totalStats.passes + 1 ∧
      (s.passed).totalStats.fails = s.totalStats.fails ∧
      (s.failed).totalStats.fails = s.totalStats.fails + 1 ∧
      (s.failed).totalStats.passes = s.totalStats.passes ∧
      (¬ s.counter < 0 → s.counter.toNat < s.stats.length →
        (s.passed).currentTestStats.passes = s.currentTestStats.passes + 1 ∧
        (s.failed).currentTestStats.fails = s.currentTestStats.fails + 1)) ∧
    (∀ (k : Nat) (s : SuiteState) (a : Stmt), ExecInv k s → ExecInv k (execStmt s a).1) := by
  refine ⟨(runSome_RunInv s0 idxs mode h).2.2, ?_, execStmt_ExecInv⟩
  intro s
  refine ⟨rfl, rfl, rfl, rfl, fun hc hlen => ⟨?_, ?_⟩⟩
  · show (SuiteState.currentTestStats
      { s with totalStats := incPasses s.totalStats,
               stats := if s.counter < 0 then s.stats
                 else modifyAt incPasses s.stats s.counter.toNat }).passes = _
    unfold SuiteState.currentTestStats
    simp only [if_neg hc]
    rw [modifyAt_getD incPasses s.stats s.counter.toNat hlen]
    rfl
  · show (SuiteState.currentTestStats
      { s with totalStats := incFails s.totalStats,
               stats := if s.counter < 0 then s.stats
                 else modifyAt incFails s.stats s.counter.toNat }).fails = _
    unfold SuiteState.currentTestStats
    simp only [if_neg hc]
    rw [modifyAt_getD incFails s.stats s.counter.toNat hlen]
    rfl

/-- C4 witness: the theorem applied to a concrete one-test suite. -/
theorem suiteTotalsAreSumOfPerTestStats_witness :
    ((addTest (mkSuite "w") "A"
        [Stmt.checkS (Except.ok true) OnAssertionFailure.Continue "a" 1] "f").counter =
      (((addTest (mkSuite "w") "A"
        [Stmt.checkS (Except.ok true) OnAssertionFailure.Continue "a" 1] "f").stats.length :
          Int) - 1)) ∧
    ((runSome (addTest (mkSuite "w") "A"
        [Stmt.checkS (Except.ok true) OnAssertionFailure.Continue "a" 1] "f")
        [0] Mode.Continue).totalStats =
      sumStats ((runSome (addTest (mkSuite "w") "A"
        [Stmt.checkS (Except.ok true) OnAssertionFailure.Continue "a" 1] "f")
        [0] Mode.Continue).stats.drop 0)) :=
  ⟨by decide,
    (suiteTotalsAreSumOfPerTestStats (addTest (mkSuite "w") "A"
      [Stmt.checkS (Except.ok true) OnAssertionFailure.Continue "a" 1] "f")
      [0] Mode.Continue (by decide)).1⟩

theorem getD_append_lt {α : Type} (l1 l2 : List α) (i : Nat) (d : α) (h : i < l1.length) :
    (l1 ++ l2).getD i d = l1.getD i d := by
  induction l1 generalizing i with
  | nil => simp at h
  | cons x xs ih =>
    cases i with
    | zero => rfl
    | succ m => simpa using ih m (by simpa using h)

theorem getD_append_len {α : Type} (l1 : List α) (x d : α) :
    (l1 ++ [x]).getD l1.length d = x := by
  induction l1 with
  | nil => rfl
  | cons y ys ih => simp [ih]

/-- C10: `runSome` treats each requested index as a 0-based position into the
registration order: exactly the indices `i` with `0 ≤ i < tests.size` produce
a test run (one header per run, in order), tests built by `addTest` carry the
1-based `index` attribute `position + 1`, and `run` passes the positions
`0 .. n-1`; concretely, in a two-test suite position `0` runs the test whose
`index` attribute is `1`, while requesting `2` (the last test's 1-based
index) runs nothing. -/
theorem runSomeInterpretsZeroBasedPositions :
    (∀ (s : SuiteState) (idxs : List Int) (mode : Mode),
      headers (runSome s idxs mode).events =
        (idxs.filter fun i => decide (0 ≤ i ∧ i < (s.tests.length : Int))).map
          (fun i => headerOf (getTest s.tests i))) ∧
    (∀ (s : SuiteState) (name : String) (body : List Stmt) (file : String),
      (∀ j, j < s.tests.length → (s.tests.getD j dummyTest).index = j + 1) →
      ∀ i, i < (addTest s name body file).tests.length →
        ((addTest s name body file).tests.getD i dummyTest).index = i + 1) ∧
    (∀ name, (mkSuite name).tests = []) ∧
    (∀ (s : SuiteState) (mode : Mode),
      run s mode = runSome s ((List.range s.tests.length).map (fun n => (n : Int))) mode) ∧
    (headers (runSome (addTest (addTest (mkSuite "s") "A" [] "f") "B" [] "f")
        [0] Mode.Continue).events = [Event.testHeader "f" "A" 1] ∧
      headers (runSome (addTest (addTest (mkSuite "s") "A" [] "f") "B" [] "f")
        [2] Mode.Continue).events = []) := by
  refine ⟨runSome_headers, ?_, fun name => rfl, fun s mode => rfl, by decide, by decide⟩
  intro s name body file hprev i hi
  simp only [addTest, List.length_append, List.length_cons, List.length_nil] at hi
  rcases Nat.lt_or_ge i s.tests.length with hlt | hge
  · show ((s.tests ++ [_]).getD i dummyTest).index = i + 1
    rw [getD_append_lt s.tests _ i dummyTest hlt]
    exact hprev i hlt
  · have hieq : i = s.tests.length := by omega
    subst hieq
    show ((s.tests ++ [_]).getD s.tests.length dummyTest).index = s.tests.length + 1
    rw [getD_append_len]

end litest
